import Mathlib

/-!
Verification of the risk-alert lifecycle of the SIH-HACKATHON
student-dropout-prediction platform.

The repository's frontend (`frontend/src/services/api.js`, `RiskGauge`,
the dashboards) is embedded directly from the JavaScript source.  The
backend Alert Lifecycle Manager (FastAPI services) is not part of the
provided sources — only its REST callers are — so its operations are
modelled from the specification (spec.md §4.1) and are marked
`Modelled from the spec:` in their doc comments.
-/

namespace SIH

/-! ## Risk bucket classification (frontend/src/components/RiskGauge.js) -/

/-- Risk buckets used by the UI and the alert pipeline. -/
inductive RiskLevel
  | low
  | moderate
  | high
deriving DecidableEq, Repr

/-- Embeds `getRiskLevel` of `RiskGauge.js`:
`if (score <= 3) return 'low'; if (score <= 6) return 'moderate'; return 'high';` -/
def getRiskLevel (score : Int) : RiskLevel :=
  if score ≤ 3 then .low
  else if score ≤ 6 then .moderate
  else .high

/-- Embeds the score-based `getRiskColor` of `MentorDashboard.js` (lines 122-126):
`if (riskScore <= 3) return 'text-success-600 bg-success-50'; ...`. -/
def getRiskColor (riskScore : Int) : String :=
  if riskScore ≤ 3 then "text-success-600 bg-success-50"
  else if riskScore ≤ 6 then "text-warning-600 bg-warning-50"
  else "text-danger-600 bg-danger-50"

/-! ## Axios response interceptor (frontend/src/services/api.js, lines 28-37) -/

/-- The browser state the interceptor touches: the stored auth token
(`localStorage.getItem('token')`) and the current location. -/
structure BrowserState where
  token : Option String
  location : String
deriving DecidableEq, Repr

/-- An axios error as seen by the response interceptor:
`error.response?.status` is `none` when no response was received. -/
structure ApiError where
  status : Option Nat
  body : String
deriving DecidableEq, Repr

/-- Embeds the response-error interceptor of `api.js`:
if `error.response?.status === 401` the token is removed and the browser
is sent to `/login`; in every case the error is rejected back unchanged. -/
def responseErrorHandler (e : ApiError) (b : BrowserState) : BrowserState × ApiError :=
  if e.status = some 401 then
    ({ token := none, location := "/login" }, e)
  else
    (b, e)

/-! ## Alert lifecycle data model (spec.md §3, §4.1) -/

/-- Alert lifecycle states (spec.md §4.1):
`new` (initial, with `escalated` as a sub-state of `new`),
`acknowledged`, `resolved` (terminal). -/
inductive AlertState
  | new
  | acknowledged
  | resolved
deriving DecidableEq, Repr

/-- Alert severity, derived from the triggering prediction's bucket. -/
inductive Severity
  | low
  | moderate
  | high
deriving DecidableEq, Repr

/-- Severity derived from the triggering prediction's bucket (spec.md §3). -/
def RiskLevel.toSeverity : RiskLevel → Severity
  | .low => .low
  | .moderate => .moderate
  | .high => .high

/-- Modelled from the spec: the Alert entity of spec.md §3 — the backend
Pydantic model is not among the provided sources.  `last_escalated_at` is
the internal marker of spec.md §4.1 that keeps the sweep idempotent
within one SLA window.  Timestamps are hours as naturals. -/
structure Alert where
  id : Nat
  student_id : Nat
  mentor_id : Nat
  severity : Severity
  message : String
  state : AlertState
  created_at : Nat
  acknowledged_at : Option Nat
  resolved_at : Option Nat
  escalation_count : Nat
  last_escalated_at : Option Nat
deriving DecidableEq, Repr

/-- The mentor-response SLA window: 24 hours (spec.md §4.1, and the
embedded README of `AdminDashboard.js`: "Auto-reassign if no response
within 24h"). -/
def SLA_WINDOW : Nat := 24

/-- An alert is open when its state is `new` or `acknowledged`
(spec.md glossary). -/
def Alert.isOpen (a : Alert) : Bool :=
  a.state == .new || a.state == .acknowledged

/-- Modelled from the spec: the alert collection plus the id counter of
the persistence layer (the backend store is not among the provided
sources). -/
structure AlertStore where
  alerts : List Alert
  nextId : Nat
deriving DecidableEq, Repr

/-- Notifications dispatched by the Alert Lifecycle Manager
(spec.md §2: on alert creation and on escalation). -/
inductive Notif
  | created (mentor alertId : Nat)
  | escalated (mentor alertId : Nat)
deriving DecidableEq, Repr

/-- Error taxonomy exposed by the lifecycle operations (spec.md §7). -/
inductive AlertError
  | invalidTransition
  | notFound
deriving DecidableEq, Repr

/-! ## Alert lifecycle operations (spec.md §4.1, §6) -/

/-- Modelled from the spec: severity merge on an open alert — "high is
sticky — never downgraded by a later moderate reading" (spec.md §4.1). -/
def mergeSeverity (old : Severity) (b : RiskLevel) : Severity :=
  if old == .high then .high else b.toSeverity

/-- Modelled from the spec: the in-place update applied to the matched
open alert on a merging prediction: severity and message change,
everything else (created_at included) is untouched (spec.md §4.1). -/
def mergeUpd (exId : Nat) (b : RiskLevel) (msg : String) (a : Alert) : Alert :=
  if a.id == exId then { a with severity := mergeSeverity a.severity b, message := msg }
  else a

/-- Modelled from the spec: `createOrUpdateAlert(prediction)` — the
backend handler is not among the provided sources.  On a prediction with
bucket `moderate` or `high`: if the student has no open alert, create one
(severity = bucket, state = new, created_at = now) and notify the mentor;
if one exists, update severity/message in place without resetting
created_at (spec.md §4.1 creation / merge policy). -/
def createOrUpdateAlert (st : AlertStore) (student mentor : Nat) (b : RiskLevel)
    (msg : String) (now : Nat) : AlertStore × List Notif :=
  if b == .low then (st, [])
  else
    match st.alerts.find? (fun a => a.student_id == student && a.isOpen) with
    | none =>
        let a : Alert :=
          { id := st.nextId, student_id := student, mentor_id := mentor,
            severity := b.toSeverity, message := msg, state := .new,
            created_at := now, acknowledged_at := none, resolved_at := none,
            escalation_count := 0, last_escalated_at := none }
        ({ alerts := st.alerts ++ [a], nextId := st.nextId + 1 },
         [Notif.created mentor st.nextId])
    | some ex =>
        ({ alerts := st.alerts.map (mergeUpd ex.id b msg), nextId := st.nextId }, [])

/-- Modelled from the spec: `acknowledgeAlert(alertId, note)` — requires
state = new, sets acknowledged_at = now; acknowledging an
already-acknowledged alert is a no-op, not an error; a resolved alert is
an invalid transition (spec.md §4.1, §6). -/
def acknowledgeAlert (st : AlertStore) (alertId now : Nat) :
    Except AlertError (AlertStore × List Notif) :=
  match st.alerts.find? (fun a => a.id == alertId) with
  | none => .error .notFound
  | some a =>
      match a.state with
      | .new =>
          .ok ({ st with alerts := st.alerts.map (fun x =>
                   if x.id == alertId then
                     { x with state := .acknowledged, acknowledged_at := some now }
                   else x) }, [])
      | .acknowledged => .ok (st, [])
      | .resolved => .error .invalidTransition

/-- Modelled from the spec: the update applied to the alert being
resolved: state becomes resolved and resolved_at = now (spec.md §4.1). -/
def resolveUpd (alertId now : Nat) (x : Alert) : Alert :=
  if x.id == alertId then { x with state := .resolved, resolved_at := some now }
  else x

/-- Modelled from the spec: `resolveAlert(alertId, note)` — requires
state ∈ \x7bnew, acknowledged\x7d, sets resolved_at = now; rejects with
InvalidTransition if already resolved (spec.md §4.1, §6). -/
def resolveAlert (st : AlertStore) (alertId now : Nat) :
    Except AlertError (AlertStore × List Notif) :=
  match st.alerts.find? (fun a => a.id == alertId) with
  | none => .error .notFound
  | some a =>
      if a.state == .resolved then .error .invalidTransition
      else .ok ({ st with alerts := st.alerts.map (resolveUpd alertId now) }, [])

/-- Modelled from the spec: the escalation guard of the SLA sweep — the
alert is in state new, older than SLA_WINDOW, and its last-escalated-at
marker (when set) is itself older than SLA_WINDOW (spec.md §4.1). -/
def escalGuard (now : Nat) (a : Alert) : Bool :=
  a.state == .new && decide (SLA_WINDOW < now - a.created_at) &&
    (match a.last_escalated_at with
     | none => true
     | some t => decide (SLA_WINDOW < now - t))

/-- Modelled from the spec: the escalation transition on one alert —
when the guard holds, the mentor is reassigned (the exact policy is a
configuration point, passed as `reassign`), escalation_count is
incremented, and the last-escalated-at marker is reset to now
(spec.md §4.1). -/
def escalateOne (reassign : Alert → Nat) (now : Nat) (a : Alert) : Alert :=
  if escalGuard now a then
    { a with mentor_id := reassign a,
             escalation_count := a.escalation_count + 1,
             last_escalated_at := some now }
  else a

/-- Modelled from the spec: `sweepEscalations()` — the periodic SLA
sweep applies the escalation transition to every alert whose guard holds
and returns the count of alerts escalated (spec.md §4.1, §6). -/
def sweepEscalations (reassign : Alert → Nat) (now : Nat) (st : AlertStore) :
    AlertStore × Nat :=
  ({ st with alerts := st.alerts.map (escalateOne reassign now) },
   st.alerts.countP (escalGuard now))

/-! ## listAlerts (spec.md §6) -/

/-- Modelled from the spec: the `listAlerts` filter over
\x7bstatus, mentorId, studentId\x7d (spec.md §6); absent fields match
everything. -/
structure AlertFilter where
  status : Option AlertState
  mentorId : Option Nat
  studentId : Option Nat
deriving DecidableEq, Repr

/-- Modelled from the spec: whether an alert matches a `listAlerts`
filter — every present field must agree. -/
def matchesFilter (f : AlertFilter) (a : Alert) : Bool :=
  (match f.status with | none => true | some s => a.state == s) &&
  (match f.mentorId with | none => true | some m => a.mentor_id == m) &&
  (match f.studentId with | none => true | some s => a.student_id == s)

/-- Modelled from the spec: insertion into a created_at-descending list,
used by the newest-first ordering of `listAlerts` (spec.md §6; the Mongo
index `\x7b student_id: 1, created_at: -1 \x7d` of `mongo-init.js`). -/
def insertDesc (a : Alert) : List Alert → List Alert
  | [] => [a]
  | b :: rest =>
      if b.created_at ≤ a.created_at then a :: b :: rest
      else b :: insertDesc a rest

/-- Modelled from the spec: created_at-descending sort for `listAlerts`. -/
def sortDesc : List Alert → List Alert
  | [] => []
  | a :: rest => insertDesc a (sortDesc rest)

/-- Modelled from the spec: `listAlerts(filter)` — the matching alerts,
newest first, i.e. sorted by created_at descending (spec.md §6). -/
def listAlerts (f : AlertFilter) (st : AlertStore) : List Alert :=
  sortDesc (st.alerts.filter (matchesFilter f))

/-! ## System events and reachable states (spec.md §5) -/

/-- Modelled from the spec: the operations that touch the alert
collection — prediction ingestion, the two mentor actions and the SLA
sweep (spec.md §5).  The sweep carries the configurable reassignment
policy. -/
inductive Event
  | predict (student mentor : Nat) (b : RiskLevel) (msg : String)
  | ack (alertId : Nat)
  | resolve (alertId : Nat)
  | sweep (reassign : Alert → Nat)

/-- Modelled from the spec: the effect of one event at time `now` on the
store.  A rejected mentor action (InvalidTransition / unknown id) leaves
the store unchanged. -/
def applyEvent (e : Event) (now : Nat) (st : AlertStore) : AlertStore :=
  match e with
  | .predict s m b msg => (createOrUpdateAlert st s m b msg now).1
  | .ack i =>
      match acknowledgeAlert st i now with
      | .ok (st', _) => st'
      | .error _ => st
  | .resolve i =>
      match resolveAlert st i now with
      | .ok (st', _) => st'
      | .error _ => st
  | .sweep r => (sweepEscalations r now st).1

/-- Modelled from the spec: the reachable system states — the empty
store at time 0, advanced by events at non-decreasing times. -/
inductive Reachable : AlertStore → Nat → Prop
  | init : Reachable ⟨[], 0⟩ 0
  | step {st t} (e : Event) {t' : Nat} :
      Reachable st t → t ≤ t' → Reachable (applyEvent e t' st) t'

/-- Number of open alerts a student has in a store. -/
def openCount (student : Nat) (st : AlertStore) : Nat :=
  st.alerts.countP (fun a => a.student_id == student && a.isOpen)

/-! ## Concrete sample data for evaluating the model -/

/-- A sample reassignment policy. -/
def demoReassign : Alert → Nat := fun _ => 9

/-- A fresh high-severity alert for student 1, created at hour 0. -/
def demoNewAlert : Alert :=
  { id := 0, student_id := 1, mentor_id := 2, severity := .high, message := "risk",
    state := .new, created_at := 0, acknowledged_at := none, resolved_at := none,
    escalation_count := 0, last_escalated_at := none }

/-- The sample alert after acknowledgement at hour 1. -/
def demoAckAlert : Alert :=
  { demoNewAlert with state := .acknowledged, acknowledged_at := some 1 }

/-- The sample alert after resolution at hour 2. -/
def demoResolvedAlert : Alert :=
  { demoNewAlert with state := .resolved, resolved_at := some 2 }

/-- Store after a high prediction for student 1 hits the empty store at hour 1. -/
def demoStoreA : AlertStore := applyEvent (.predict 1 2 .high "risk") 1 ⟨[], 0⟩

/-- `demoStoreA` after the mentor acknowledges alert 0 at hour 2. -/
def demoStoreB : AlertStore := applyEvent (.ack 0) 2 demoStoreA

/-- `demoStoreB` after the mentor resolves alert 0 at hour 3. -/
def demoStoreC : AlertStore := applyEvent (.resolve 0) 3 demoStoreB

/-- The alert created in `demoStoreA`: like `demoNewAlert` but created at
hour 1. -/
def demoAlertAt1 : Alert := { demoNewAlert with created_at := 1 }

/-- The alert of `demoStoreC`: created at 1, acknowledged at 2, resolved at 3. -/
def demoDoneAlert : Alert :=
  { id := 0, student_id := 1, mentor_id := 2, severity := .high, message := "risk",
    state := .resolved, created_at := 1, acknowledged_at := some 2,
    resolved_at := some 3, escalation_count := 0, last_escalated_at := none }

/-! ## Store invariants (spec.md §3, §8) -/

/-- Structural well-formedness of a store: ids are below the counter and
pairwise distinct, and every student has at most one open alert. -/
def WellFormed (st : AlertStore) : Prop :=
  (∀ a ∈ st.alerts, a.id < st.nextId) ∧
  st.alerts.Pairwise (fun a b => a.id ≠ b.id) ∧
  (∀ s : Nat, openCount s st ≤ 1)

/-- Timestamp coherence at time `t`: acknowledgement stamps are in the
past, resolved_at is only set on resolved alerts, and acknowledgement
never postdates resolution. -/
def TimeOk (st : AlertStore) (t : Nat) : Prop :=
  ∀ a ∈ st.alerts,
    (∀ ta, a.acknowledged_at = some ta → ta ≤ t) ∧
    (a.state ≠ .resolved → a.resolved_at = none) ∧
    (∀ ta tr, a.acknowledged_at = some ta → a.resolved_at = some tr → ta ≤ tr)

/-! ## Theorems -/

/-- C8: for every risk score s, the bucket classification is low if
s ≤ 3, moderate if 3 < s ≤ 6, and high if s > 6
(`getRiskLevel`, `RiskGauge.js` lines 116-120; the same thresholds drive
`getRiskColor` in `MentorDashboard.js` lines 122-126). -/
theorem c8_risk_bucket_thresholds (s : Int) :
    (s ≤ 3 → getRiskLevel s = .low) ∧
    (3 < s → s ≤ 6 → getRiskLevel s = .moderate) ∧
    (6 < s → getRiskLevel s = .high) ∧
    (3 < s → s ≤ 6 → getRiskColor s = "text-warning-600 bg-warning-50") := by
  unfold getRiskLevel getRiskColor
  refine ⟨fun h1 => ?_, fun h1 h2 => ?_, fun h1 => ?_, fun h1 h2 => ?_⟩
  · rw [if_pos h1]
  · rw [if_neg (by omega), if_pos h2]
  · rw [if_neg (by omega), if_neg (by omega)]
  · rw [if_neg (by omega), if_pos h2]

/-- Witness for C8 at scores 2, 5 and 8. -/
theorem c8_witness :
    getRiskLevel 2 = RiskLevel.low ∧ getRiskLevel 5 = RiskLevel.moderate ∧
    getRiskLevel 8 = RiskLevel.high :=
  ⟨(c8_risk_bucket_thresholds 2).1 (by decide),
   (c8_risk_bucket_thresholds 5).2.1 (by decide) (by decide),
   (c8_risk_bucket_thresholds 8).2.2.1 (by decide)⟩

/-- C10: through the shared axios instance, a 401 response removes the
stored token and navigates to /login, and every error with another
status is rejected back unchanged (`api.js` lines 28-37). -/
theorem c10_auth_interceptor (e : ApiError) (b : BrowserState) :
    (e.status = some 401 →
       (responseErrorHandler e b).1.token = none ∧
       (responseErrorHandler e b).1.location = "/login" ∧
       (responseErrorHandler e b).2 = e) ∧
    (e.status ≠ some 401 → responseErrorHandler e b = (b, e)) := by
  unfold responseErrorHandler
  constructor
  · intro h
    rw [if_pos h]
    exact ⟨rfl, rfl, rfl⟩
  · intro h
    rw [if_neg h]

/-- Witness for C10: a 401 clears the token and redirects, a 500 is
passed back untouched. -/
theorem c10_witness :
    (responseErrorHandler ⟨some 401, "expired"⟩ ⟨some "tok", "/home"⟩).1.token = none ∧
    (responseErrorHandler ⟨some 401, "expired"⟩ ⟨some "tok", "/home"⟩).1.location = "/login" ∧
    responseErrorHandler ⟨some 500, "oops"⟩ ⟨some "tok", "/home"⟩ =
      (⟨some "tok", "/home"⟩, ⟨some 500, "oops"⟩) :=
  ⟨((c10_auth_interceptor ⟨some 401, "expired"⟩ ⟨some "tok", "/home"⟩).1 rfl).1,
   ((c10_auth_interceptor ⟨some 401, "expired"⟩ ⟨some "tok", "/home"⟩).1 rfl).2.1,
   (c10_auth_interceptor ⟨some 500, "oops"⟩ ⟨some "tok", "/home"⟩).2 (by decide)⟩

/-- C5: acknowledging an already-acknowledged alert succeeds as a no-op:
no error, the store (hence every field of the alert, acknowledged_at
included) unchanged, and no notification dispatched. -/
theorem c5_ack_noop (st : AlertStore) (alertId now : Nat) (a : Alert)
    (hfind : st.alerts.find? (fun x => x.id == alertId) = some a)
    (hstate : a.state = .acknowledged) :
    acknowledgeAlert st alertId now = .ok (st, []) := by
  simp [acknowledgeAlert, hfind, hstate]

/-- Witness for C5 on a one-alert store holding the acknowledged sample
alert. -/
theorem c5_witness :
    acknowledgeAlert ⟨[demoAckAlert], 1⟩ 0 5 = .ok (⟨[demoAckAlert], 1⟩, []) :=
  c5_ack_noop ⟨[demoAckAlert], 1⟩ 0 5 demoAckAlert (by decide) (by decide)

/-- C6: resolveAlert succeeds exactly when the alert is in state new or
acknowledged, setting resolved_at = now on it; on an already-resolved
alert it returns InvalidTransition and the store is unchanged. -/
theorem c6_resolve_semantics (st : AlertStore) (alertId now : Nat) (a : Alert)
    (hfind : st.alerts.find? (fun x => x.id == alertId) = some a) :
    ((a.state = .new ∨ a.state = .acknowledged) →
       resolveAlert st alertId now =
         .ok ({ st with alerts := st.alerts.map (resolveUpd alertId now) }, []) ∧
       (∀ x : Alert, x.id = alertId →
          (resolveUpd alertId now x).resolved_at = some now ∧
          (resolveUpd alertId now x).state = .resolved)) ∧
    (a.state = .resolved →
       resolveAlert st alertId now = .error .invalidTransition ∧
       applyEvent (.resolve alertId) now st = st) ∧
    ((∃ out, resolveAlert st alertId now = .ok out) ↔
       (a.state = .new ∨ a.state = .acknowledged)) := by
  constructor
  · intro h
    have hne : (a.state == AlertState.resolved) = false := by
      rcases h with h | h <;> simp [h]
    constructor
    · simp [resolveAlert, hfind, hne]
    · intro x hx
      simp [resolveUpd, hx]
  constructor
  · intro h
    constructor
    · simp [resolveAlert, hfind, h]
    · simp [applyEvent, resolveAlert, hfind, h]
  constructor
  · rintro ⟨out, hout⟩
    cases hs : a.state with
    | new => exact Or.inl rfl
    | acknowledged => exact Or.inr rfl
    | resolved => simp [resolveAlert, hfind, hs] at hout
  · intro h
    have hne : (a.state == AlertState.resolved) = false := by
      rcases h with h | h <;> simp [h]
    exact ⟨({ st with alerts := st.alerts.map (resolveUpd alertId now) }, []),
      by simp [resolveAlert, hfind, hne]⟩

/-- Witness for C6: resolving the fresh sample alert succeeds; resolving
the already-resolved one is an InvalidTransition. -/
theorem c6_witness :
    resolveAlert ⟨[demoResolvedAlert], 1⟩ 0 7 = .error .invalidTransition ∧
    resolveAlert ⟨[demoNewAlert], 1⟩ 0 7 =
      .ok (⟨[{ demoNewAlert with state := .resolved, resolved_at := some 7 }], 1⟩, []) := by
  constructor
  · exact ((c6_resolve_semantics ⟨[demoResolvedAlert], 1⟩ 0 7 demoResolvedAlert
      (by decide)).2.1 (by decide)).1
  · have h := ((c6_resolve_semantics ⟨[demoNewAlert], 1⟩ 0 7 demoNewAlert
      (by decide)).1 (Or.inl (by decide))).1
    rw [h]
    rfl

/-- C4: a merging moderate/high prediction updates the matched open
alert's severity and message in place, leaves created_at (and the state
and every other alert) unchanged, creates no alert, and never downgrades
an existing high severity. -/
theorem c4_merge_in_place (st : AlertStore) (student mentor : Nat) (b : RiskLevel)
    (msg : String) (now : Nat) (ex : Alert)
    (hb : b ≠ .low)
    (hfind : st.alerts.find? (fun a => a.student_id == student && a.isOpen) = some ex) :
    (createOrUpdateAlert st student mentor b msg now).1.alerts
        = st.alerts.map (mergeUpd ex.id b msg) ∧
    (∀ a : Alert, (mergeUpd ex.id b msg a).created_at = a.created_at ∧
       (mergeUpd ex.id b msg a).state = a.state ∧
       (mergeUpd ex.id b msg a).id = a.id) ∧
    (∀ a : Alert, a.severity = .high → (mergeUpd ex.id b msg a).severity = .high) ∧
    (∀ a : Alert, a.id = ex.id →
       (mergeUpd ex.id b msg a).message = msg ∧
       (mergeUpd ex.id b msg a).severity = mergeSeverity a.severity b) ∧
    (∀ a : Alert, a.id ≠ ex.id → mergeUpd ex.id b msg a = a) ∧
    (createOrUpdateAlert st student mentor b msg now).1.alerts.length
        = st.alerts.length := by
  have hb' : (b == RiskLevel.low) = false := by
    cases b <;> simp_all
  refine ⟨?_, fun a => ?_, fun a ha => ?_, fun a ha => ?_, fun a ha => ?_, ?_⟩
  · simp [createOrUpdateAlert, hb', hfind]
  · unfold mergeUpd
    split <;> simp
  · unfold mergeUpd
    split <;> simp [mergeSeverity, ha]
  · simp [mergeUpd, ha]
  · simp [mergeUpd, ha]
  · simp [createOrUpdateAlert, hb', hfind]

/-- Witness for C4: a later moderate prediction for student 1 keeps the
open high alert's severity at high, rewrites its message, and keeps
created_at. -/
theorem c4_witness :
    (mergeUpd demoNewAlert.id .moderate "dip" demoNewAlert).severity = .high ∧
    (mergeUpd demoNewAlert.id .moderate "dip" demoNewAlert).message = "dip" ∧
    (mergeUpd demoNewAlert.id .moderate "dip" demoNewAlert).created_at
      = demoNewAlert.created_at ∧
    (createOrUpdateAlert ⟨[demoNewAlert], 1⟩ 1 2 .moderate "dip" 6).1.alerts.length
      = 1 := by
  have h := c4_merge_in_place ⟨[demoNewAlert], 1⟩ 1 2 .moderate "dip" 6 demoNewAlert
    (by decide) (by decide)
  exact ⟨h.2.2.1 demoNewAlert (by decide), (h.2.2.2.1 demoNewAlert rfl).1,
    (h.2.1 demoNewAlert).1, h.2.2.2.2.2⟩

/-- C2: the escalation transition fires only when the alert is in state
new and older than the 24h SLA window; an acknowledged alert, however
old, is left untouched by any sweep. -/
theorem c2_escalation_guard (reassign : Alert → Nat) (now : Nat) (a : Alert)
    (st : AlertStore) :
    (escalGuard now a = true → SLA_WINDOW < now - a.created_at ∧ a.state = .new) ∧
    ((escalateOne reassign now a).escalation_count ≠ a.escalation_count →
       SLA_WINDOW < now - a.created_at ∧ a.state = .new) ∧
    (a.state = .acknowledged → escalateOne reassign now a = a) ∧
    (sweepEscalations reassign now st).1.alerts
       = st.alerts.map (escalateOne reassign now) := by
  have hguard : escalGuard now a = true →
      SLA_WINDOW < now - a.created_at ∧ a.state = .new := by
    intro h
    unfold escalGuard at h
    simp only [Bool.and_eq_true, beq_iff_eq, decide_eq_true_eq] at h
    exact ⟨h.1.2, h.1.1⟩
  refine ⟨hguard, fun h => ?_, fun h => ?_, rfl⟩
  · by_cases hg : escalGuard now a = true
    · exact hguard hg
    · exfalso
      apply h
      simp [escalateOne, hg]
  · have hg : escalGuard now a = false := by
      unfold escalGuard
      simp [h]
    simp [escalateOne, hg]

/-- Witness for C2: a 25-hour-old new alert passes the guard, and the
acknowledged sample alert is untouched by a sweep at hour 30. -/
theorem c2_witness :
    (SLA_WINDOW < 25 - demoNewAlert.created_at ∧ demoNewAlert.state = .new) ∧
    escalateOne demoReassign 30 demoAckAlert = demoAckAlert :=
  ⟨(c2_escalation_guard demoReassign 25 demoNewAlert ⟨[], 0⟩).1 (by decide),
   (c2_escalation_guard demoReassign 30 demoAckAlert ⟨[], 0⟩).2.2.1 (by decide)⟩

/-- The escalation guard, unfolded into its three conditions. -/
lemma escalGuard_eq_true_iff (now : Nat) (a : Alert) :
    escalGuard now a = true ↔
      a.state = .new ∧ SLA_WINDOW < now - a.created_at ∧
        (∀ t, a.last_escalated_at = some t → SLA_WINDOW < now - t) := by
  unfold escalGuard
  cases hl : a.last_escalated_at with
  | none => simp [hl]
  | some t => simp [hl, and_assoc]

/-- A failed guard leaves the alert untouched. -/
lemma escalateOne_of_guard_false (r : Alert → Nat) (now : Nat) (a : Alert)
    (h : escalGuard now a = false) : escalateOne r now a = a := by
  simp [escalateOne, h]

/-- A passing guard escalates: reassign, bump the count, stamp the marker. -/
lemma escalateOne_of_guard_true (r : Alert → Nat) (now : Nat) (a : Alert)
    (h : escalGuard now a = true) :
    escalateOne r now a =
      { a with mentor_id := r a, escalation_count := a.escalation_count + 1,
               last_escalated_at := some now } := by
  simp [escalateOne, h]

/-- Escalating at `t` and again at `t'` within the same SLA window bumps
escalation_count exactly as a single sweep at `t'` would. -/
lemma escalateOne_count_twice (r r' : Alert → Nat) (t t' : Nat) (a : Alert)
    (hle : t ≤ t') (hwin : t' - t ≤ SLA_WINDOW) :
    (escalateOne r' t' (escalateOne r t a)).escalation_count
      = (escalateOne r' t' a).escalation_count ∧
    (escalGuard t a = true →
      (escalateOne r' t' (escalateOne r t a)).escalation_count
        = a.escalation_count + 1) := by
  cases hg : escalGuard t a with
  | false =>
      rw [escalateOne_of_guard_false r t a hg]
      exact ⟨rfl, fun h => by simp at h⟩
  | true =>
      obtain ⟨hstate, hsla, hlast⟩ := (escalGuard_eq_true_iff t a).mp hg
      have ha1 : escalateOne r t a =
          { a with mentor_id := r a, escalation_count := a.escalation_count + 1,
                   last_escalated_at := some t } :=
        escalateOne_of_guard_true r t a hg
      have hg1 : escalGuard t' (escalateOne r t a) = false := by
        rw [ha1]
        have hno : ¬ SLA_WINDOW < t' - t := by omega
        unfold escalGuard
        simp [hno]
      have hg2 : escalGuard t' a = true := by
        rw [escalGuard_eq_true_iff]
        refine ⟨hstate, by omega, fun u hu => ?_⟩
        have := hlast u hu
        omega
      have e1 : (escalateOne r' t' (escalateOne r t a)).escalation_count
          = a.escalation_count + 1 := by
        rw [escalateOne_of_guard_false r' t' _ hg1, ha1]
      have e2 : (escalateOne r' t' a).escalation_count = a.escalation_count + 1 := by
        rw [escalateOne_of_guard_true r' t' a hg2]
      exact ⟨by rw [e1, e2], fun _ => e1⟩

/-- C3: running the SLA sweep twice within one SLA window increments
escalation_count exactly once per eligible alert — per alert, sweep at t
then sweep at t' (with t' - t ≤ SLA_WINDOW) yields the same
escalation_count as the single sweep at t', and an alert eligible at t
ends with exactly one increment. -/
theorem c3_sweep_idempotent_in_window (r r' : Alert → Nat) (t t' : Nat)
    (st : AlertStore) (hle : t ≤ t') (hwin : t' - t ≤ SLA_WINDOW) :
    (∀ a ∈ st.alerts,
       (escalateOne r' t' (escalateOne r t a)).escalation_count
         = (escalateOne r' t' a).escalation_count ∧
       (escalGuard t a = true →
         (escalateOne r' t' (escalateOne r t a)).escalation_count
           = a.escalation_count + 1)) ∧
    (∀ i : Nat,
       ((sweepEscalations r' t' (sweepEscalations r t st).1).1.alerts[i]?).map
           Alert.escalation_count
         = ((sweepEscalations r' t' st).1.alerts[i]?).map Alert.escalation_count) := by
  constructor
  · exact fun a _ => escalateOne_count_twice r r' t t' a hle hwin
  · intro i
    unfold sweepEscalations
    simp only [List.getElem?_map]
    cases h : st.alerts[i]? with
    | none => rfl
    | some a =>
        simp [(escalateOne_count_twice r r' t t' a hle hwin).1]

/-- Witness for C3: sweeping the 25h-old sample alert at hours 25 and 30
bumps escalation_count to exactly 1, the same as a single sweep at 30. -/
theorem c3_witness :
    (escalateOne demoReassign 30 (escalateOne demoReassign 25 demoNewAlert)).escalation_count
        = (escalateOne demoReassign 30 demoNewAlert).escalation_count ∧
    (escalateOne demoReassign 30 (escalateOne demoReassign 25 demoNewAlert)).escalation_count
        = demoNewAlert.escalation_count + 1 := by
  have h := (c3_sweep_idempotent_in_window demoReassign demoReassign 25 30
    ⟨[demoNewAlert], 1⟩ (by decide) (by decide)).1 demoNewAlert (by decide)
  exact ⟨h.1, h.2 (by decide)⟩

/-- Membership through descending insertion. -/
lemma mem_insertDesc (a x : Alert) (l : List Alert) :
    x ∈ insertDesc a l ↔ x = a ∨ x ∈ l := by
  induction l with
  | nil => simp [insertDesc]
  | cons b rest ih =>
      unfold insertDesc
      split
      · simp
      · simp [ih]
        tauto

/-- Descending insertion preserves the created_at-descending order. -/
lemma pairwise_insertDesc (a : Alert) (l : List Alert)
    (h : l.Pairwise (fun x y => y.created_at ≤ x.created_at)) :
    (insertDesc a l).Pairwise (fun x y => y.created_at ≤ x.created_at) := by
  induction l with
  | nil => simp [insertDesc]
  | cons b rest ih =>
      rw [List.pairwise_cons] at h
      unfold insertDesc
      split
      · rename_i hba
        rw [List.pairwise_cons]
        refine ⟨fun y hy => ?_, List.pairwise_cons.mpr h⟩
        rcases List.mem_cons.mp hy with rfl | hy'
        · exact hba
        · exact le_trans (h.1 y hy') hba
      · rename_i hba
        rw [List.pairwise_cons]
        refine ⟨fun y hy => ?_, ih h.2⟩
        rcases (mem_insertDesc a y rest).mp hy with rfl | hy'
        · omega
        · exact h.1 y hy'

/-- Membership through the descending sort. -/
lemma mem_sortDesc (x : Alert) (l : List Alert) :
    x ∈ sortDesc l ↔ x ∈ l := by
  induction l with
  | nil => simp [sortDesc]
  | cons b rest ih =>
      unfold sortDesc
      rw [mem_insertDesc]
      simp [ih]

/-- The descending sort is sorted by created_at descending. -/
lemma pairwise_sortDesc (l : List Alert) :
    (sortDesc l).Pairwise (fun x y => y.created_at ≤ x.created_at) := by
  induction l with
  | nil => simp [sortDesc]
  | cons b rest ih => exact pairwise_insertDesc b (sortDesc rest) ih

/-- C9: listAlerts with any filter over status, mentorId and studentId
returns exactly the matching alerts, ordered newest first (created_at
descending). -/
theorem c9_listAlerts_newest_first (f : AlertFilter) (st : AlertStore) :
    (listAlerts f st).Pairwise (fun x y => y.created_at ≤ x.created_at) ∧
    ∀ a : Alert, a ∈ listAlerts f st ↔ (a ∈ st.alerts ∧ matchesFilter f a = true) := by
  constructor
  · exact pairwise_sortDesc _
  · intro a
    unfold listAlerts
    rw [mem_sortDesc, List.mem_filter]

/-- Mapping an element-wise predicate-nonincreasing function does not
increase a countP. -/
lemma countP_map_le_of {α : Type} (f : α → α) (p : α → Bool) (l : List α)
    (h : ∀ a ∈ l, p (f a) = true → p a = true) :
    (l.map f).countP p ≤ l.countP p := by
  induction l with
  | nil => simp
  | cons b rest ih =>
      rw [List.map_cons, List.countP_cons, List.countP_cons]
      have hrest := ih (fun a ha hpa => h a (List.mem_cons_of_mem b ha) hpa)
      cases hfb : p (f b) with
      | true =>
          rw [h b (List.mem_cons_self b rest) hfb]
          simp only [if_pos rfl]
          omega
      | false =>
          simp only [Bool.false_eq_true, if_neg, Nat.add_zero]
          exact le_trans hrest (Nat.le_add_right _ _)

/-- Mapping an element-wise predicate-preserving function keeps a countP. -/
lemma countP_map_eq_of {α : Type} (f : α → α) (p : α → Bool) (l : List α)
    (h : ∀ a ∈ l, p (f a) = p a) :
    (l.map f).countP p = l.countP p := by
  induction l with
  | nil => simp
  | cons b rest ih =>
      rw [List.map_cons, List.countP_cons, List.countP_cons,
        h b (List.mem_cons_self b rest),
        ih (fun a ha => h a (List.mem_cons_of_mem b ha))]

/-- In a list with pairwise-distinct ids, elements with the same id are
equal. -/
lemma eq_of_pairwise_ne {l : List Alert}
    (hp : l.Pairwise (fun a b => a.id ≠ b.id)) {x y : Alert}
    (hx : x ∈ l) (hy : y ∈ l) (h : x.id = y.id) : x = y := by
  induction l with
  | nil => cases hx
  | cons b rest ih =>
      rw [List.pairwise_cons] at hp
      rcases List.mem_cons.mp hx with rfl | hx'
      · rcases List.mem_cons.mp hy with rfl | hy'
        · rfl
        · exact absurd h (hp.1 y hy')
      · rcases List.mem_cons.mp hy with rfl | hy'
        · exact absurd h.symm (hp.1 x hx')
        · exact ih hp.2 hx' hy'

/-- The merge update touches only severity and message. -/
lemma mergeUpd_frame (exId : Nat) (b : RiskLevel) (msg : String) (a : Alert) :
    (mergeUpd exId b msg a).id = a.id ∧
    (mergeUpd exId b msg a).student_id = a.student_id ∧
    (mergeUpd exId b msg a).state = a.state ∧
    (mergeUpd exId b msg a).acknowledged_at = a.acknowledged_at ∧
    (mergeUpd exId b msg a).resolved_at = a.resolved_at ∧
    (mergeUpd exId b msg a).escalation_count = a.escalation_count := by
  unfold mergeUpd
  split <;> simp

/-- Escalation touches only mentor, escalation_count and the marker. -/
lemma escalateOne_frame (r : Alert → Nat) (now : Nat) (a : Alert) :
    (escalateOne r now a).id = a.id ∧
    (escalateOne r now a).student_id = a.student_id ∧
    (escalateOne r now a).state = a.state ∧
    (escalateOne r now a).acknowledged_at = a.acknowledged_at ∧
    (escalateOne r now a).resolved_at = a.resolved_at := by
  unfold escalateOne
  split <;> simp

/-- Structural well-formedness survives any id-preserving, openness-
nonincreasing per-element rewrite of the alert list. -/
lemma wf_map (st : AlertStore) (f : Alert → Alert) (h : WellFormed st)
    (hid : ∀ a, (f a).id = a.id)
    (hopen : ∀ (s : Nat), ∀ a ∈ st.alerts,
       ((f a).student_id == s && (f a).isOpen) = true →
       (a.student_id == s && a.isOpen) = true) :
    WellFormed { st with alerts := st.alerts.map f } := by
  obtain ⟨h1, h2, h3⟩ := h
  refine ⟨?_, ?_, ?_⟩
  · intro a ha
    obtain ⟨b, hb, rfl⟩ := List.mem_map.mp ha
    rw [hid]
    exact h1 b hb
  · exact h2.map f (fun a b hab => by rw [hid, hid]; exact hab)
  · intro s
    exact le_trans (countP_map_le_of f _ st.alerts (hopen s)) (h3 s)

/-- Timestamp coherence is monotone in the clock. -/
lemma timeok_mono (st : AlertStore) (t t' : Nat) (h : TimeOk st t) (hle : t ≤ t') :
    TimeOk st t' := by
  intro a ha
  obtain ⟨h1, h2, h3⟩ := h a ha
  exact ⟨fun ta hta => le_trans (h1 ta hta) hle, h2, h3⟩

/-- Timestamp coherence survives any rewrite that keeps state and both
timestamps. -/
lemma timeok_map_frame (st : AlertStore) (t : Nat) (f : Alert → Alert)
    (h : TimeOk st t)
    (hack : ∀ a, (f a).acknowledged_at = a.acknowledged_at)
    (hres : ∀ a, (f a).resolved_at = a.resolved_at)
    (hstate : ∀ a, (f a).state = a.state) :
    TimeOk { st with alerts := st.alerts.map f } t := by
  intro a ha
  obtain ⟨b, hb, rfl⟩ := List.mem_map.mp ha
  obtain ⟨h1, h2, h3⟩ := h b hb
  rw [hack b, hres b, hstate b]
  exact ⟨h1, h2, h3⟩

/-- One event at a later clock preserves both store invariants. -/
lemma master_step (e : Event) (now : Nat) (st : AlertStore) (t : Nat)
    (hwf : WellFormed st) (hto : TimeOk st t) (hle : t ≤ now) :
    WellFormed (applyEvent e now st) ∧ TimeOk (applyEvent e now st) now := by
  have htonow : TimeOk st now := timeok_mono st t now hto hle
  cases e with
  | sweep r =>
      refine ⟨wf_map st (escalateOne r now) hwf
          (fun a => (escalateOne_frame r now a).1) ?_,
        timeok_map_frame st now (escalateOne r now) htonow
          (fun a => (escalateOne_frame r now a).2.2.2.1)
          (fun a => (escalateOne_frame r now a).2.2.2.2)
          (fun a => (escalateOne_frame r now a).2.2.1)⟩
      intro s a _ hpa
      rw [(escalateOne_frame r now a).2.1] at hpa
      rwa [show (escalateOne r now a).isOpen = a.isOpen by
        unfold Alert.isOpen
        rw [(escalateOne_frame r now a).2.2.1]] at hpa
  | predict student mentor b msg =>
      show WellFormed (createOrUpdateAlert st student mentor b msg now).1 ∧
        TimeOk (createOrUpdateAlert st student mentor b msg now).1 now
      cases hbl : b == RiskLevel.low with
      | true =>
          simp only [createOrUpdateAlert, hbl, if_pos rfl]
          exact ⟨hwf, htonow⟩
      | false =>
          cases hf : st.alerts.find? (fun a => a.student_id == student && a.isOpen) with
          | none =>
              have hna : ∃ na : Alert, na.id = st.nextId ∧ na.student_id = student ∧
                  na.state = .new ∧ na.acknowledged_at = none ∧ na.resolved_at = none ∧
                  (createOrUpdateAlert st student mentor b msg now).1 =
                    { alerts := st.alerts ++ [na], nextId := st.nextId + 1 } :=
                ⟨{ id := st.nextId, student_id := student, mentor_id := mentor,
                   severity := b.toSeverity, message := msg, state := .new,
                   created_at := now, acknowledged_at := none, resolved_at := none,
                   escalation_count := 0, last_escalated_at := none },
                 rfl, rfl, rfl, rfl, rfl, by simp [createOrUpdateAlert, hbl, hf]⟩
              obtain ⟨na, hnaid, hnastu, hnast, hnaack, hnares, hres⟩ := hna
              rw [hres]
              obtain ⟨h1, h2, h3⟩ := hwf
              have hzero : ∀ x ∈ st.alerts,
                  ¬((x.student_id == student && x.isOpen) = true) :=
                List.find?_eq_none.mp hf
              refine ⟨⟨?_, ?_, ?_⟩, ?_⟩
              · intro a ha
                rcases List.mem_append.mp ha with ha' | ha'
                · exact Nat.lt_succ_of_lt (h1 a ha')
                · rw [List.mem_singleton.mp ha', hnaid]
                  exact Nat.lt_succ_self _
              · rw [List.pairwise_append]
                refine ⟨h2, by simp, ?_⟩
                intro a ha c hc
                rw [List.mem_singleton.mp hc, hnaid]
                exact Nat.ne_of_lt (h1 a ha)
              · intro s
                show (st.alerts ++ [na]).countP _ ≤ 1
                rw [List.countP_append]
                by_cases hs : student = s
                · subst hs
                  have hz : st.alerts.countP
                      (fun a => a.student_id == student && a.isOpen) = 0 :=
                    List.countP_eq_zero.mpr hzero
                  rw [hz]
                  simp only [List.countP_cons, List.countP_nil, Nat.zero_add]
                  split <;> omega
                · have hone : ([na]).countP
                      (fun a => a.student_id == s && a.isOpen) = 0 := by
                    simp only [List.countP_cons, List.countP_nil, Nat.zero_add]
                    rw [if_neg]
                    simp [hnastu, hs]
                  rw [hone, Nat.add_zero]
                  exact h3 s
              · intro a ha
                rcases List.mem_append.mp ha with ha' | ha'
                · exact htonow a ha'
                · rw [List.mem_singleton.mp ha']
                  refine ⟨?_, fun _ => hnares, ?_⟩
                  · intro ta hta
                    rw [hnaack] at hta
                    cases hta
                  · intro ta tr hta _
                    rw [hnaack] at hta
                    cases hta
          | some ex =>
              have hres : (createOrUpdateAlert st student mentor b msg now).1 =
                  { st with alerts := st.alerts.map (mergeUpd ex.id b msg) } := by
                simp [createOrUpdateAlert, hbl, hf]
              rw [hres]
              refine ⟨wf_map st (mergeUpd ex.id b msg) hwf
                  (fun a => (mergeUpd_frame ex.id b msg a).1) ?_,
                timeok_map_frame st now (mergeUpd ex.id b msg) htonow
                  (fun a => (mergeUpd_frame ex.id b msg a).2.2.2.1)
                  (fun a => (mergeUpd_frame ex.id b msg a).2.2.2.2.1)
                  (fun a => (mergeUpd_frame ex.id b msg a).2.2.1)⟩
              intro s a _ hpa
              rw [(mergeUpd_frame ex.id b msg a).2.1] at hpa
              rwa [show (mergeUpd ex.id b msg a).isOpen = a.isOpen by
                unfold Alert.isOpen
                rw [(mergeUpd_frame ex.id b msg a).2.2.1]] at hpa
  | ack i =>
      cases hf : st.alerts.find? (fun a => a.id == i) with
      | none =>
          have hres : applyEvent (.ack i) now st = st := by
            simp [applyEvent, acknowledgeAlert, hf]
          rw [hres]
          exact ⟨hwf, htonow⟩
      | some a =>
          have ha_mem : a ∈ st.alerts := List.mem_of_find?_eq_some hf
          have ha_id : a.id = i := by
            have := List.find?_some hf
            simpa using this
          cases hs : a.state with
          | acknowledged =>
              have hres : applyEvent (.ack i) now st = st := by
                simp [applyEvent, acknowledgeAlert, hf, hs]
              rw [hres]
              exact ⟨hwf, htonow⟩
          | resolved =>
              have hres : applyEvent (.ack i) now st = st := by
                simp [applyEvent, acknowledgeAlert, hf, hs]
              rw [hres]
              exact ⟨hwf, htonow⟩
          | new =>
              have hres : applyEvent (.ack i) now st =
                  { st with alerts := st.alerts.map (fun x =>
                      if x.id == i then
                        { x with state := .acknowledged, acknowledged_at := some now }
                      else x) } := by
                simp [applyEvent, acknowledgeAlert, hf, hs]
              rw [hres]
              have hsame : ∀ x ∈ st.alerts, (x.id == i) = true → x = a := by
                intro x hx hxi
                exact eq_of_pairwise_ne hwf.2.1 hx ha_mem
                  (by rw [ha_id]; exact beq_iff_eq.mp hxi)
              constructor
              · refine wf_map st _ hwf
                  (fun x => by by_cases hxi : (x.id == i) = true <;> simp [hxi]) ?_
                intro s x hx hpx
                by_cases hxi : (x.id == i) = true
                · have hxa := hsame x hx hxi
                  rw [if_pos hxi] at hpx
                  rw [hxa] at hpx
                  rw [hxa]
                  simp [Alert.isOpen, hs] at hpx ⊢
                  exact hpx
                · rw [if_neg hxi] at hpx
                  exact hpx
              · intro y hy
                obtain ⟨x, hx, rfl⟩ := List.mem_map.mp hy
                by_cases hxi : (x.id == i) = true
                · have hxa := hsame x hx hxi
                  have hxres : x.resolved_at = none := by
                    obtain ⟨_, h2, _⟩ := hto x hx
                    exact h2 (by rw [hxa, hs]; simp)
                  rw [if_pos hxi]
                  refine ⟨?_, fun _ => hxres, ?_⟩
                  · intro ta hta
                    simp only [Option.some.injEq] at hta
                    omega
                  · intro ta tr _ htr
                    rw [hxres] at htr
                    cases htr
                · rw [if_neg hxi]
                  exact htonow x hx
  | resolve i =>
      cases hf : st.alerts.find? (fun a => a.id == i) with
      | none =>
          have hres : applyEvent (.resolve i) now st = st := by
            simp [applyEvent, resolveAlert, hf]
          rw [hres]
          exact ⟨hwf, htonow⟩
      | some a =>
          cases hrs : a.state == AlertState.resolved with
          | true =>
              have hres : applyEvent (.resolve i) now st = st := by
                simp [applyEvent, resolveAlert, hf, hrs]
              rw [hres]
              exact ⟨hwf, htonow⟩
          | false =>
              have hres : applyEvent (.resolve i) now st =
                  { st with alerts := st.alerts.map (resolveUpd i now) } := by
                simp [applyEvent, resolveAlert, hf, hrs]
              rw [hres]
              constructor
              · refine wf_map st _ hwf
                  (fun x => by unfold resolveUpd; split <;> rfl) ?_
                intro s x _ hpx
                unfold resolveUpd at hpx
                by_cases hxi : (x.id == i) = true
                · rw [if_pos hxi] at hpx
                  simp [Alert.isOpen] at hpx
                · rw [if_neg hxi] at hpx
                  exact hpx
              · intro y hy
                obtain ⟨x, hx, rfl⟩ := List.mem_map.mp hy
                obtain ⟨h1, h2, h3⟩ := hto x hx
                unfold resolveUpd
                by_cases hxi : (x.id == i) = true
                · rw [if_pos hxi]
                  refine ⟨fun ta hta => le_trans (h1 ta hta) hle, ?_, ?_⟩
                  · intro hc
                    exact absurd rfl hc
                  · intro ta tr hta htr
                    simp only [Option.some.injEq] at htr
                    have := h1 ta hta
                    omega
                · rw [if_neg hxi]
                  exact htonow x hx

/-- Every reachable store is well-formed and timestamp-coherent. -/
lemma reachable_inv (st : AlertStore) (t : Nat) (h : Reachable st t) :
    WellFormed st ∧ TimeOk st t := by
  induction h with
  | init =>
      refine ⟨⟨?_, ?_, ?_⟩, ?_⟩
      · intro a ha
        cases ha
      · exact List.Pairwise.nil
      · intro s
        simp [openCount]
      · intro a ha
        cases ha
  | step e hr hle ih => exact master_step e _ _ _ ih.1 ih.2 hle

/-- Every event other than a sweep keeps every alert's escalation_count
(positionally). -/
lemma applyEvent_count_frame (e : Event) (now : Nat) (st : AlertStore) (i : Nat)
    (a : Alert) (hga : st.alerts[i]? = some a) (hns : ∀ r, e ≠ Event.sweep r) :
    ∃ a', (applyEvent e now st).alerts[i]? = some a' ∧
      a'.escalation_count = a.escalation_count := by
  cases e with
  | sweep r => exact absurd rfl (hns r)
  | predict student mentor b msg =>
      cases hbl : b == RiskLevel.low with
      | true =>
          refine ⟨a, ?_, rfl⟩
          simpa [applyEvent, createOrUpdateAlert, hbl] using hga
      | false =>
          cases hf : st.alerts.find? (fun x => x.student_id == student && x.isOpen) with
          | none =>
              refine ⟨a, ?_, rfl⟩
              have hlt : i < st.alerts.length := (List.getElem?_eq_some.mp hga).1
              have happ : (applyEvent (Event.predict student mentor b msg) now st).alerts[i]?
                  = st.alerts[i]? := by
                simp only [applyEvent, createOrUpdateAlert, hbl, Bool.false_eq_true,
                  if_false, hf]
                exact List.getElem?_append_left hlt
              rw [happ, hga]
          | some ex =>
              refine ⟨mergeUpd ex.id b msg a, ?_,
                (mergeUpd_frame ex.id b msg a).2.2.2.2.2⟩
              have happ : (applyEvent (Event.predict student mentor b msg) now st).alerts[i]?
                  = (st.alerts[i]?).map (mergeUpd ex.id b msg) := by
                simp [applyEvent, createOrUpdateAlert, hbl, hf, List.getElem?_map]
              rw [happ, hga]
              rfl
  | ack j =>
      cases hf : st.alerts.find? (fun x => x.id == j) with
      | none =>
          refine ⟨a, ?_, rfl⟩
          simpa [applyEvent, acknowledgeAlert, hf] using hga
      | some b =>
          cases hbs : b.state with
          | new =>
              refine ⟨if (a.id == j) = true then
                  { a with state := .acknowledged, acknowledged_at := some now }
                else a, ?_, by split <;> rfl⟩
              have happ : (applyEvent (Event.ack j) now st).alerts[i]?
                  = (st.alerts[i]?).map (fun x =>
                      if x.id == j then
                        { x with state := .acknowledged, acknowledged_at := some now }
                      else x) := by
                simp [applyEvent, acknowledgeAlert, hf, hbs, List.getElem?_map]
              rw [happ, hga]
              rfl
          | acknowledged =>
              refine ⟨a, ?_, rfl⟩
              simpa [applyEvent, acknowledgeAlert, hf, hbs] using hga
          | resolved =>
              refine ⟨a, ?_, rfl⟩
              simpa [applyEvent, acknowledgeAlert, hf, hbs] using hga
  | resolve j =>
      cases hf : st.alerts.find? (fun x => x.id == j) with
      | none =>
          refine ⟨a, ?_, rfl⟩
          simpa [applyEvent, resolveAlert, hf] using hga
      | some b =>
          cases hbs : b.state == AlertState.resolved with
          | true =>
              refine ⟨a, ?_, rfl⟩
              simpa [applyEvent, resolveAlert, hf, hbs] using hga
          | false =>
              refine ⟨resolveUpd j now a, ?_, by unfold resolveUpd; split <;> rfl⟩
              have happ : (applyEvent (Event.resolve j) now st).alerts[i]?
                  = (st.alerts[i]?).map (resolveUpd j now) := by
                simp [applyEvent, resolveAlert, hf, hbs, List.getElem?_map]
              rw [happ, hga]
              rfl

/-- C1: in every reachable state each student has at most one open alert
(state new or acknowledged), and a moderate/high prediction arriving
while an open alert exists updates it in place — the alert list's length
is unchanged, so no second alert is created. -/
theorem c1_open_alert_uniqueness (st : AlertStore) (t : Nat) (h : Reachable st t) :
    (∀ s : Nat, openCount s st ≤ 1) ∧
    (∀ (student mentor : Nat) (b : RiskLevel) (msg : String) (now : Nat) (ex : Alert),
       st.alerts.find? (fun a => a.student_id == student && a.isOpen) = some ex →
       (createOrUpdateAlert st student mentor b msg now).1.alerts.length
         = st.alerts.length) := by
  refine ⟨(reachable_inv st t h).1.2.2, ?_⟩
  intro student mentor b msg now ex hfind
  cases hbl : b == RiskLevel.low with
  | true => simp [createOrUpdateAlert, hbl]
  | false => simp [createOrUpdateAlert, hbl, hfind]

/-- Witness for C1 on the reachable one-alert store `demoStoreA`. -/
theorem c1_witness :
    openCount 1 demoStoreA ≤ 1 ∧
    (createOrUpdateAlert demoStoreA 1 2 .moderate "again" 6).1.alerts.length
      = demoStoreA.alerts.length := by
  have hreach : Reachable demoStoreA 1 :=
    Reachable.step (Event.predict 1 2 .high "risk") Reachable.init (Nat.zero_le 1)
  have h := c1_open_alert_uniqueness demoStoreA 1 hreach
  exact ⟨h.1 1, h.2 1 2 .moderate "again" 6 demoAlertAt1 (by decide)⟩

/-- C7: in every reachable state, whenever an alert has both
acknowledged_at and resolved_at set, acknowledged_at ≤ resolved_at; and
an event changes some alert's escalation_count only if it is a sweep
acting on an alert in state new past the SLA window, and then by exactly
one increment. -/
theorem c7_timestamp_order_and_escalation_accounting :
    (∀ (st : AlertStore) (t : Nat), Reachable st t →
       ∀ a ∈ st.alerts, ∀ ta tr, a.acknowledged_at = some ta →
         a.resolved_at = some tr → ta ≤ tr) ∧
    (∀ (st : AlertStore) (e : Event) (now i : Nat) (a a' : Alert),
       st.alerts[i]? = some a →
       (applyEvent e now st).alerts[i]? = some a' →
       a'.escalation_count ≠ a.escalation_count →
       (∃ r, e = Event.sweep r) ∧ a.state = .new ∧
         SLA_WINDOW < now - a.created_at ∧
         a'.escalation_count = a.escalation_count + 1) := by
  constructor
  · intro st t h a ha ta tr hta htr
    exact ((reachable_inv st t h).2 a ha).2.2 ta tr hta htr
  · intro st e now i a a' hga hga' hne
    cases e with
    | sweep r =>
        have happ : (applyEvent (Event.sweep r) now st).alerts[i]?
            = (st.alerts[i]?).map (escalateOne r now) := by
          simp [applyEvent, sweepEscalations, List.getElem?_map]
        rw [happ, hga] at hga'
        have ha' : escalateOne r now a = a' := by
          simpa using hga'
        cases hg : escalGuard now a with
        | false =>
            exfalso
            apply hne
            rw [← ha', escalateOne_of_guard_false r now a hg]
        | true =>
            obtain ⟨hstate, hsla, -⟩ := (escalGuard_eq_true_iff now a).mp hg
            refine ⟨⟨r, rfl⟩, hstate, hsla, ?_⟩
            rw [← ha', escalateOne_of_guard_true r now a hg]
    | predict student mentor b msg =>
        exfalso
        obtain ⟨a'', h1, h2⟩ := applyEvent_count_frame (Event.predict student mentor b msg)
          now st i a hga (fun r hr => by cases hr)
        rw [hga'] at h1
        cases h1
        exact hne h2
    | ack j =>
        exfalso
        obtain ⟨a'', h1, h2⟩ := applyEvent_count_frame (Event.ack j)
          now st i a hga (fun r hr => by cases hr)
        rw [hga'] at h1
        cases h1
        exact hne h2
    | resolve j =>
        exfalso
        obtain ⟨a'', h1, h2⟩ := applyEvent_count_frame (Event.resolve j)
          now st i a hga (fun r hr => by cases hr)
        rw [hga'] at h1
        cases h1
        exact hne h2

/-- Witness for C7: on the fully-run sample trace acknowledged_at = 2 ≤
3 = resolved_at, and a concrete sweep at hour 25 on the hour-0 alert is
an escalation of an overdue new alert. -/
theorem c7_witness :
    (2 : Nat) ≤ 3 ∧ demoNewAlert.state = .new ∧
      SLA_WINDOW < 25 - demoNewAlert.created_at := by
  constructor
  · have hreach : Reachable demoStoreC 3 :=
      Reachable.step (Event.resolve 0)
        (Reachable.step (Event.ack 0)
          (Reachable.step (Event.predict 1 2 .high "risk") Reachable.init
            (Nat.zero_le 1)) (by omega)) (by omega)
    exact c7_timestamp_order_and_escalation_accounting.1 demoStoreC 3 hreach
      demoDoneAlert (by decide) 2 3 rfl rfl
  · have h := c7_timestamp_order_and_escalation_accounting.2 ⟨[demoNewAlert], 1⟩
      (Event.sweep demoReassign) 25 0 demoNewAlert
      (escalateOne demoReassign 25 demoNewAlert) (by decide) (by decide) (by decide)
    exact ⟨h.2.1, h.2.2.1⟩

end SIH
